import Mathlib

/-!
Shallow embedding of `coin_project.py` and `database_manager.py` from the
crypto_compare_project repository.

Modelling conventions:
* timestamps and dates are integers counting seconds since the epoch
  (the program stores dates with second granularity);
* prices, volumes and market caps are rationals;
* a pandas dataframe column is a list of optional rationals (`none` = NaN);
* the SQLite database is an association list from table names to lists of
  rows; a stored row is modelled by its `date` column together with an
  abstract integer payload identifying the rest of the row;
* HTTP interaction is modelled by passing the (already received and parsed)
  response of each request to the fetch function; fallible operations
  return `Except`.
-/

namespace CryptoCompare

/-- Seconds in a day; `timedelta(days=1)` has this many seconds. -/
def secondsPerDay : Int := 86400

/-- `get_start_date` (coin_project.py lines 17-20): `datetime.now() -
timedelta(days=365)` when no newest date is stored, else the stored date. -/
def get_start_date (newest_date : Option Int) (now : Int) : Int :=
  match newest_date with
  | none => now - 365 * secondsPerDay
  | some d => d

/-- `get_limit` (coin_project.py lines 22-25): `(end_date - newest_date).days`
when a newest date is set (Python `timedelta.days` floors the day count),
else the literal 2000. -/
def get_limit (newest_date : Option Int) (end_date : Int) : Int :=
  match newest_date with
  | some newest => Int.fdiv (end_date - newest) secondsPerDay
  | none => 2000

/-- The pad fill of pandas `pct_change`: a NaN entry takes the last value
seen (`prev`), a stored entry stands for itself. -/
def padValue (prev x : Option Rat) : Option Rat :=
  match x with
  | some v => some v
  | none => prev

/-- One output entry of `pct_change`: current over previous minus one when
both padded values exist, else NaN. -/
def changeValue (cur prev : Option Rat) : Option Rat :=
  match cur, prev with
  | some c, some p => some (c / p - 1)
  | _, _ => none

/-- One step of pandas `Series.pct_change()` with its default pad fill:
`prev` is the last non-NaN value seen so far (`none` before any value). -/
def pctAux (prev : Option Rat) : List (Option Rat) → List (Option Rat)
  | [] => []
  | x :: xs => changeValue (padValue prev x) prev :: pctAux (padValue prev x) xs

/-- pandas `Series.pct_change()`: the first entry is always NaN. -/
def pct_change (xs : List (Option Rat)) : List (Option Rat) :=
  pctAux none xs

/-- A dataframe as an association list from column names to columns. -/
abbrev DataFrame := List (String × List (Option Rat))

/-- Reading a column of the dataframe. -/
def getCol (df : DataFrame) (name : String) : List (Option Rat) :=
  (df.lookup name).getD []

/-- `df[name] = col`: replaces the column when present, else appends it. -/
def setCol : DataFrame → String → List (Option Rat) → DataFrame
  | [], name, col => [(name, col)]
  | (m, c) :: rest, name, col =>
    if m = name then (name, col) :: rest else (m, c) :: setCol rest name col

/-- `calculate_price_change` (coin_project.py lines 10-15): for each coin in
the configured list, `df[coin Price Change] = df[coin Price].pct_change() * 100`. -/
def calculate_price_change (coins : List String) (df : DataFrame) : DataFrame :=
  coins.foldl
    (fun d coin =>
      setCol d (coin ++ " Price Change")
        ((pct_change (getCol d (coin ++ " Price"))).map (Option.map (fun r => r * 100))))
    df

/-- One entry of the `Data.Data` array of a histoday JSON response. -/
structure HistoRow where
  time : Int
  close : Rat
  volumeto : Rat
deriving DecidableEq

/-- The exceptions the fetch functions can raise: an HTTPError from
`raise_for_status`, or a KeyError from indexing the parsed JSON body. -/
inductive FetchError where
  | httpError
  | keyError
deriving DecidableEq

/-- One HTTP response to a histoday request: its status code and the parsed
`Data.Data` array of its JSON body. -/
structure HistodayResponse where
  status : Nat
  rows : List HistoRow
deriving DecidableEq

/-- `Response.raise_for_status()` from the requests library: raises
`HTTPError` exactly for 4xx and 5xx status codes. -/
def raise_for_status (status : Nat) : Except FetchError Unit :=
  if 400 ≤ status ∧ status ≤ 599 then .error .httpError else .ok ()

/-- The per-symbol request loop shared by `fetch_price_history` and
`fetch_trading_volumes`: each response goes through `raise_for_status`, and
the first failure aborts the loop. -/
def collectHistoday : List HistodayResponse → Except FetchError (List (List HistoRow))
  | [] => .ok []
  | r :: rest =>
    match raise_for_status r.status with
    | .error e => .error e
    | .ok _ =>
      match collectHistoday rest with
      | .error e => .error e
      | .ok tl => .ok (r.rows :: tl)

/-- The `(Date, close)` pairs of one symbol's response
(`timestamps` zipped with `price_values`). -/
def toPriceSeries (rows : List HistoRow) : List (Int × Rat) :=
  rows.map (fun r => (r.time, r.close))

/-- The `(Date, volumeto)` pairs of one symbol's response. -/
def toVolumeSeries (rows : List HistoRow) : List (Int × Rat) :=
  rows.map (fun r => (r.time, r.volumeto))

/-- One row of the accumulated wide dataframe: its `Date` key and one
optional value per symbol column merged so far. -/
abbrev WideRow := Int × List (Option Rat)

/-- `pd.merge(df, temp_df, on=Date, how=outer)` where `df` has `n` value
columns: every existing row gains the new symbol's value at its date (NaN
when absent), and each date only in the new series becomes a fresh row with
NaN in the `n` old columns. -/
def mergeOuter (df : List WideRow) (n : Nat) (s : List (Int × Rat)) : List WideRow :=
  df.map (fun p => (p.1, p.2 ++ [s.lookup p.1])) ++
    (s.filter (fun q => decide (q.1 ∉ df.map Prod.fst))).map
      (fun q => (q.1, List.replicate n none ++ [some q.2]))

/-- The merge loop of `fetch_price_history` / `fetch_trading_volumes`: the
first series (while `df.empty`) becomes the dataframe, later series are
outer-merged on `Date`. -/
def fetchWide : List WideRow → Nat → List (List (Int × Rat)) → List WideRow
  | df, _, [] => df
  | df, n, s :: rest =>
    if df.isEmpty then fetchWide (s.map (fun q => (q.1, [some q.2]))) 1 rest
    else fetchWide (mergeOuter df n s) (n + 1) rest

/-- `fetch_price_history` (coin_project.py lines 34-48): per-symbol requests
checked with `raise_for_status`, close prices merged into a wide dataframe. -/
def fetch_price_history (resps : List HistodayResponse) : Except FetchError (List WideRow) :=
  match collectHistoday resps with
  | .error e => .error e
  | .ok series => .ok (fetchWide [] 0 (series.map toPriceSeries))

/-- `fetch_trading_volumes` (coin_project.py lines 131-146): same loop over
the `volumeto` field. -/
def fetch_trading_volumes (resps : List HistodayResponse) : Except FetchError (List WideRow) :=
  match collectHistoday resps with
  | .error e => .error e
  | .ok series => .ok (fetchWide [] 0 (series.map toVolumeSeries))

/-- The `RAW` object of a pricemultifull body: per symbol, `USD.MKTCAP`. -/
abbrev MarketCapRaw := List (String × Rat)

/-- One HTTP response to the pricemultifull request: its status code and the
`RAW` key of its parsed JSON body, when that key is present. -/
structure PriceMultiFullResponse where
  status : Nat
  raw : Option MarketCapRaw
deriving DecidableEq

/-- `fetch_market_cap` (coin_project.py lines 104-110): the source never
calls `raise_for_status`; the only failure is `data[RAW]` raising KeyError
when the body lacks the key. The status code is not inspected. -/
def fetch_market_cap (resp : PriceMultiFullResponse) : Except FetchError MarketCapRaw :=
  match resp.raw with
  | some d => .ok d
  | none => .error .keyError

/-- One coin's entry in the coinlist body. -/
structure CoinEntry where
  coinName : String
  description : String
  imageUrl : String
deriving DecidableEq

/-- One HTTP response to the coinlist request: its status code and the
`Data` key of its parsed JSON body, when present. -/
structure CoinListResponse where
  status : Nat
  coinData : Option (List (String × CoinEntry))
deriving DecidableEq

/-- The per-symbol loop of `fetch_coin_info`: `coin_info[symbol]` raises
KeyError when a configured symbol is missing from the body. -/
def collectCoins (m : List (String × CoinEntry)) : List String → Except FetchError (List (String × CoinEntry))
  | [] => .ok []
  | s :: rest =>
    match m.lookup s with
    | none => .error .keyError
    | some e =>
      match collectCoins m rest with
      | .error err => .error err
      | .ok tl => .ok ((s, e) :: tl)

/-- `fetch_coin_info` (coin_project.py lines 50-80): the source never calls
`raise_for_status`; it indexes `data[Data]` and then each symbol. The status
code is not inspected. -/
def fetch_coin_info (resp : CoinListResponse) (coins : List String) : Except FetchError (List (String × CoinEntry)) :=
  match resp.coinData with
  | none => .error .keyError
  | some m => collectCoins m coins

/-- Whether an `Except` result is an error. -/
def isErr {α : Type} : Except FetchError α → Bool
  | .error _ => true
  | .ok _ => false

/-- A stored row: its `date` column (seconds since epoch) and an abstract
integer payload standing for the remaining columns. -/
structure DBRow where
  date : Int
  payload : Int
deriving DecidableEq

/-- The SQLite database: an association list from table names to row lists. -/
abbrev DB := List (String × List DBRow)

/-- `DatabaseManager.table_exists` (database_manager.py lines 69-90). -/
def table_exists (db : DB) (name : String) : Bool :=
  (db.lookup name).isSome

/-- `DatabaseManager.create_table` (lines 44-67): CREATE TABLE IF NOT EXISTS,
so an existing table (and its rows) is left untouched. -/
def create_table (db : DB) (name : String) : DB :=
  if table_exists db name then db else db ++ [(name, [])]

/-- `DatabaseManager.drop_table` (lines 92-113): DROP TABLE IF EXISTS. -/
def drop_table (db : DB) (name : String) : DB :=
  db.filter (fun t => decide (t.1 ≠ name))

/-- The rows currently stored in a table (empty for a missing table). -/
def getTable (db : DB) (name : String) : List DBRow :=
  (db.lookup name).getD []

/-- Overwriting a table's rows wholesale (used for `to_sql if_exists=replace`
and to model an append as old rows followed by new rows). -/
def setTable : DB → String → List DBRow → DB
  | [], name, rows => [(name, rows)]
  | (m, c) :: rest, name, rows =>
    if m = name then (name, rows) :: rest else (m, c) :: setTable rest name rows

/-- `SELECT MAX(date)` over a table's rows: `none` exactly when the table is
empty (every stored row carries a real date). -/
def maxDate : List DBRow → Option Int
  | [] => none
  | r :: rest =>
    match maxDate rest with
    | none => some r.date
    | some m => some (max r.date m)

/-- `DatabaseManager.get_newest_date` (lines 115-143): SELECT MAX(date) on a
missing table raises a sqlite3 error, which is re-raised. -/
def get_newest_date (db : DB) (name : String) : Except Unit (Option Int) :=
  match db.lookup name with
  | none => .error ()
  | some rows => .ok (maxDate rows)

/-- `DatabaseManager.should_fetch_data` (lines 172-205): `SELECT COUNT(*)` on
a missing table raises a sqlite3 error, which is re-raised; an empty table
returns true; else true exactly when `now - newest_date` strictly exceeds
`timedelta(hours=max_age_hours)`. -/
def should_fetch_data (db : DB) (name : String) (maxAgeHours : Int) (now : Int) : Except Unit Bool :=
  match db.lookup name with
  | none => .error ()
  | some rows =>
    if rows.length = 0 then .ok true
    else
      match maxDate rows with
      | none => .ok true
      | some d => .ok (decide (now - d > maxAgeHours * 3600))

/-- The guard `table_exists(t) and not should_fetch_data(t, h)` used by every
populate function. When the table exists, `should_fetch_data` cannot raise;
the error arm is unreachable there and its value is irrelevant. -/
def freshGuard (db : DB) (name : String) (maxAgeHours now : Int) : Bool :=
  table_exists db name &&
    !(match should_fetch_data db name maxAgeHours now with
      | .ok b => b
      | .error _ => true)

/-- `populate_market_cap` (coin_project.py lines 175-200): skip when fresh;
else the fetched per-symbol rows (dated `now`) are written with
`df.to_sql(if_exists=replace)`, which rewrites the table wholesale. The
returned flag records whether an HTTP request was issued. -/
def populate_market_cap (db : DB) (now : Int) (fetched : List DBRow) : DB × Bool :=
  if freshGuard db "market_cap" 24 now then (db, false)
  else
    let db1 := if table_exists db "market_cap" then db else create_table db "market_cap"
    (setTable db1 "market_cap" fetched, true)

/-- `populate_historic_prices` (coin_project.py lines 148-173): skip when
fresh (threshold `24 * 60` as in the source); else the melted long-format
rows are written with `df.to_sql(if_exists=append)`. -/
def populate_historic_prices (db : DB) (now : Int) (fetched : List DBRow) : DB × Bool :=
  if freshGuard db "price_history" (24 * 60) now then (db, false)
  else
    let db1 := if table_exists db "price_history" then db else create_table db "price_history"
    (setTable db1 "price_history" (getTable db1 "price_history" ++ fetched), true)

/-- `populate_trading_volumes` (coin_project.py lines 202-230): skip when
fresh; else the melted rows are appended with `df.to_sql(if_exists=append)`. -/
def populate_trading_volumes (db : DB) (now : Int) (fetched : List DBRow) : DB × Bool :=
  if freshGuard db "trading_volumes" 24 now then (db, false)
  else
    let db1 := if table_exists db "trading_volumes" then db else create_table db "trading_volumes"
    (setTable db1 "trading_volumes" (getTable db1 "trading_volumes" ++ fetched), true)

/-- `populate_data` (coin_project.py lines 232-256): skip when fresh; else
`create_table` (CREATE TABLE IF NOT EXISTS — despite the `Create or replace`
comment in the source) followed by `insert_dataframe`, a plain INSERT, so
the fetched rows are appended after any existing rows. -/
def populate_data (db : DB) (now : Int) (tableName : String) (fetched : List DBRow) : DB × Bool :=
  if freshGuard db tableName 24 now then (db, false)
  else
    let db1 := create_table db tableName
    (setTable db1 tableName (getTable db1 tableName ++ fetched), true)

/-- The state of one table under an open transaction: the committed rows and
the rows inserted by statements not yet committed. -/
structure TableState where
  committed : List DBRow
  pending : List DBRow
deriving DecidableEq

/-- `cursor.executemany`: rows enter the open transaction one at a time;
`ok` says whether a row's insert succeeds (e.g. no constraint violation).
The first failing row raises, leaving the earlier rows pending. -/
def executemany (ok : DBRow → Bool) : TableState → List DBRow → TableState × Option Unit
  | s, [] => (s, none)
  | s, r :: rest =>
    if ok r then executemany ok { s with pending := s.pending ++ [r] } rest
    else (s, some ())

/-- `conn.commit()`: pending rows become stored rows. -/
def commitTx (s : TableState) : TableState :=
  { committed := s.committed ++ s.pending, pending := [] }

/-- `conn.rollback()`: pending rows are discarded. -/
def rollbackTx (s : TableState) : TableState :=
  { committed := s.committed, pending := [] }

/-- `DatabaseManager.insert_dataframe` (database_manager.py lines 159-170):
executemany then commit; on a sqlite3 error, rollback and re-raise. -/
def insert_dataframe (ok : DBRow → Bool) (s : TableState) (rows : List DBRow) : TableState × Option Unit :=
  match executemany ok s rows with
  | (s1, none) => (commitTx s1, none)
  | (s1, some e) => (rollbackTx s1, some e)

/-- `executemany` only touches the pending rows of the open transaction; the
committed rows are untouched until a commit. -/
theorem executemany_committed (ok : DBRow → Bool) :
    ∀ (rows : List DBRow) (s : TableState),
      ((executemany ok s rows).1).committed = s.committed := by
  intro rows
  induction rows with
  | nil => intro s; rfl
  | cons r rest ih =>
    intro s
    by_cases h : ok r = true
    · simp [executemany, h, ih]
    · simp [executemany, h]

/-- A cons of stored rows always has a newest date. -/
theorem maxDate_cons (r : DBRow) (rest : List DBRow) :
    ∃ m, maxDate (r :: rest) = some m := by
  cases hrec : maxDate rest with
  | none => exact ⟨r.date, by simp [maxDate, hrec]⟩
  | some m => exact ⟨max r.date m, by simp [maxDate, hrec]⟩

/-- When the guarded table exists and the staleness check says fresh, the
populate guard is true. -/
theorem freshGuard_of_fresh (db : DB) (name : String) (maxAgeHours now : Int)
    (hex : table_exists db name = true)
    (hfresh : should_fetch_data db name maxAgeHours now = .ok false) :
    freshGuard db name maxAgeHours now = true := by
  simp [freshGuard, hex, hfresh]

/-- Claim C1, counterexample: on an absent table `should_fetch_data` raises
a database error (SELECT COUNT on a missing table) instead of returning
true as the claim states. -/
theorem C1_counterexample :
    should_fetch_data [] "price_history" 24 0 = .error () ∧
      should_fetch_data [] "price_history" 24 0 ≠ .ok true :=
  ⟨rfl, by simp [should_fetch_data]⟩

/-- Claim C1, amended: for an existing table, `should_fetch_data` returns
true iff the table is empty or its newest stored date is strictly older than
the threshold, and false otherwise; for an absent table it raises a database
error instead of returning. -/
theorem C1_amended (db : DB) (n : String) (maxAge now : Int) :
    (db.lookup n = none → should_fetch_data db n maxAge now = .error ()) ∧
    (∀ rows, db.lookup n = some rows →
      ((should_fetch_data db n maxAge now = .ok true ↔
          rows = [] ∨ ∃ d, maxDate rows = some d ∧ now - d > maxAge * 3600) ∧
        (should_fetch_data db n maxAge now = .ok false ↔
          rows ≠ [] ∧ ∀ d, maxDate rows = some d → now - d ≤ maxAge * 3600))) := by
  constructor
  · intro h
    simp [should_fetch_data, h]
  · intro rows h
    cases rows with
    | nil => simp [should_fetch_data, h]
    | cons r rest =>
      obtain ⟨m, hm⟩ := maxDate_cons r rest
      constructor
      · simp [should_fetch_data, h, hm]
      · simp [should_fetch_data, h, hm]

/-- Claim C1, witness: a table whose single row is much older than the
threshold is reported stale. -/
theorem C1_amended_witness :
    should_fetch_data [("t", [⟨0, 0⟩])] "t" 24 100000 = .ok true :=
  ((C1_amended [("t", [⟨0, 0⟩])] "t" 24 100000).2 [⟨0, 0⟩] rfl).1.mpr
    (Or.inr ⟨0, rfl, by norm_num⟩)

/-- Claim C2, counterexample: with no prior stored date `get_limit` returns
2000, not a 365-day lookback. -/
theorem C2_counterexample :
    get_limit none 0 = 2000 ∧ (2000 : Int) ≠ 365 :=
  ⟨rfl, by decide⟩

/-- Claim C2, amended: with no prior stored date `get_limit` returns the
default 2000 (the 365-day default start date is computed by
`get_start_date`, whose result `get_historic_prices` never uses); with a
prior stored date it returns the floored day difference between the end
date and that stored date. -/
theorem C2_amended (d e now : Int) :
    get_limit none e = 2000 ∧
    get_limit (some d) e = Int.fdiv (e - d) secondsPerDay ∧
    get_start_date none now = now - 365 * secondsPerDay ∧
    get_start_date (some d) now = d :=
  ⟨rfl, rfl, rfl, rfl⟩

/-- Claim C3: when the most recent stored date is unset, `get_limit` returns
the default value 2000. -/
theorem C3_default_limit (e : Int) : get_limit none e = 2000 := rfl

/-- Claim C10: `get_limit` applies no clamping — for a set stored date it is
exactly the floored day component of the difference, which can be zero,
negative, or arbitrarily larger than 2000; 2000 is only the unset default. -/
theorem C10_no_clamping :
    (∀ d e : Int, get_limit (some d) e = Int.fdiv (e - d) secondsPerDay) ∧
    (∃ d e : Int, get_limit (some d) e = 0) ∧
    (∃ d e : Int, get_limit (some d) e < 0) ∧
    (∃ d e : Int, get_limit (some d) e > 2000) ∧
    (∀ e : Int, get_limit none e = 2000) := by
  refine ⟨fun d e => rfl, ⟨0, 3600, by decide⟩, ⟨3600, 0, by decide⟩,
    ⟨0, 2001 * 86400, by decide⟩, fun e => rfl⟩

/-- Claim C7: when the batch insert fails on some row, `insert_dataframe`
rolls the transaction back — the committed rows after the call are exactly
those before it — and re-raises the error. -/
theorem C7_insert_rollback (ok : DBRow → Bool) (s : TableState) (rows : List DBRow)
    (h : (executemany ok s rows).2 = some ()) :
    insert_dataframe ok s rows = (⟨s.committed, []⟩, some ()) := by
  have hc := executemany_committed ok rows s
  unfold insert_dataframe
  cases hex : executemany ok s rows with
  | mk s1 o =>
    rw [hex] at h hc
    cases o with
    | none => simp at h
    | some u =>
      simp only at hc
      simp [rollbackTx, hc]

/-- Claim C7, witness: a one-row batch whose row violates the insert
predicate leaves the previously committed row untouched. -/
theorem C7_insert_rollback_witness :
    insert_dataframe (fun r => decide (r.payload = 0)) ⟨[⟨0, 0⟩], []⟩ [⟨5, 1⟩] =
      (⟨[⟨0, 0⟩], []⟩, some ()) :=
  C7_insert_rollback (fun r => decide (r.payload = 0)) ⟨[⟨0, 0⟩], []⟩ [⟨5, 1⟩] (by decide)

/-- Claim C9: when the target table exists and the staleness policy reports
the data fresh, each populate operation returns without consuming the
fetched data (no HTTP request) and leaves the database unchanged. -/
theorem C9_fresh_skip (db : DB) (now : Int) (fetched : List DBRow) (tbl : String) :
    (table_exists db "market_cap" = true →
      should_fetch_data db "market_cap" 24 now = .ok false →
      populate_market_cap db now fetched = (db, false)) ∧
    (table_exists db "trading_volumes" = true →
      should_fetch_data db "trading_volumes" 24 now = .ok false →
      populate_trading_volumes db now fetched = (db, false)) ∧
    (table_exists db "price_history" = true →
      should_fetch_data db "price_history" (24 * 60) now = .ok false →
      populate_historic_prices db now fetched = (db, false)) ∧
    (table_exists db tbl = true →
      should_fetch_data db tbl 24 now = .ok false →
      populate_data db now tbl fetched = (db, false)) := by
  refine ⟨fun h1 h2 => ?_, fun h1 h2 => ?_, fun h1 h2 => ?_, fun h1 h2 => ?_⟩
  · simp [populate_market_cap, freshGuard_of_fresh db _ _ _ h1 h2]
  · simp [populate_trading_volumes, freshGuard_of_fresh db _ _ _ h1 h2]
  · have hg := freshGuard_of_fresh db "price_history" (24 * 60) now h1 h2
    norm_num at hg
    simp [populate_historic_prices, hg]
  · simp [populate_data, freshGuard_of_fresh db _ _ _ h1 h2]

/-- Claim C9, witness: a database whose four tables were all updated at the
current instant is left untouched by every populate operation. -/
theorem C9_fresh_skip_witness :
    populate_market_cap
        [("market_cap", [⟨0, 0⟩]), ("trading_volumes", [⟨0, 0⟩]),
          ("price_history", [⟨0, 0⟩]), ("coin_info", [⟨0, 0⟩])] 0 [] =
      ([("market_cap", [⟨0, 0⟩]), ("trading_volumes", [⟨0, 0⟩]),
          ("price_history", [⟨0, 0⟩]), ("coin_info", [⟨0, 0⟩])], false) ∧
    populate_trading_volumes
        [("market_cap", [⟨0, 0⟩]), ("trading_volumes", [⟨0, 0⟩]),
          ("price_history", [⟨0, 0⟩]), ("coin_info", [⟨0, 0⟩])] 0 [] =
      ([("market_cap", [⟨0, 0⟩]), ("trading_volumes", [⟨0, 0⟩]),
          ("price_history", [⟨0, 0⟩]), ("coin_info", [⟨0, 0⟩])], false) ∧
    populate_historic_prices
        [("market_cap", [⟨0, 0⟩]), ("trading_volumes", [⟨0, 0⟩]),
          ("price_history", [⟨0, 0⟩]), ("coin_info", [⟨0, 0⟩])] 0 [] =
      ([("market_cap", [⟨0, 0⟩]), ("trading_volumes", [⟨0, 0⟩]),
          ("price_history", [⟨0, 0⟩]), ("coin_info", [⟨0, 0⟩])], false) ∧
    populate_data
        [("market_cap", [⟨0, 0⟩]), ("trading_volumes", [⟨0, 0⟩]),
          ("price_history", [⟨0, 0⟩]), ("coin_info", [⟨0, 0⟩])] 0 "coin_info" [] =
      ([("market_cap", [⟨0, 0⟩]), ("trading_volumes", [⟨0, 0⟩]),
          ("price_history", [⟨0, 0⟩]), ("coin_info", [⟨0, 0⟩])], false) := by
  obtain ⟨h1, h2, h3, h4⟩ :=
    C9_fresh_skip
      [("market_cap", [⟨0, 0⟩]), ("trading_volumes", [⟨0, 0⟩]),
        ("price_history", [⟨0, 0⟩]), ("coin_info", [⟨0, 0⟩])] 0 [] "coin_info"
  exact ⟨h1 (by decide) rfl, h2 (by decide) rfl, h3 (by decide) rfl,
    h4 (by decide) rfl⟩

/-- Setting a column and reading it back yields the new column. -/
theorem getCol_setCol (df : DataFrame) (name : String) (col : List (Option Rat)) :
    getCol (setCol df name col) name = col := by
  induction df with
  | nil => simp [setCol, getCol]
  | cons hd rest ih =>
    obtain ⟨m, c⟩ := hd
    by_cases h : m = name
    · subst h
      simp [setCol, getCol]
    · have hb : (name == m) = false := beq_eq_false_iff_ne.mpr (Ne.symm h)
      simp only [getCol] at ih
      simpa [setCol, getCol, h, List.lookup, hb] using ih

/-- `pct_change` at two consecutive stored values: whatever the running pad
value is, the output at the later index is the ratio minus one. -/
theorem pctAux_consecutive (p c : Rat) :
    ∀ (xs : List (Option Rat)) (prev : Option Rat) (j : Nat),
      xs[j]? = some (some p) → xs[j + 1]? = some (some c) →
      (pctAux prev xs)[j + 1]? = some (some (c / p - 1)) := by
  intro xs
  induction xs with
  | nil => intro prev j h1 _; simp at h1
  | cons x rest ih =>
    intro prev j h1 h2
    cases j with
    | zero =>
      simp at h1
      subst h1
      cases rest with
      | nil => simp at h2
      | cons y rest' =>
        simp at h2
        subst h2
        simp [pctAux, padValue, changeValue]
    | succ j' =>
      simp at h1 h2
      have hr := ih (padValue prev x) j' h1 h2
      simpa [pctAux] using hr

/-- `pct_change` never has a value in the first row. -/
theorem pct_change_head (x : Option Rat) (xs : List (Option Rat)) :
    (pct_change (x :: xs))[0]? = some none := by
  cases x <;> simp [pct_change, pctAux, padValue, changeValue]

/-- Claim C4: for two consecutive non-null prices `p` then `c` (with `p`
nonzero) in a coin's price column, `calculate_price_change` stores
`(c - p) / p * 100` at the later row of the coin's price-change column, and
the first row of that column is null. -/
theorem C4_price_change (coin : String) (df : DataFrame) (j : Nat) (p c : Rat)
    (h1 : (getCol df (coin ++ " Price"))[j]? = some (some p))
    (h2 : (getCol df (coin ++ " Price"))[j + 1]? = some (some c))
    (hp : p ≠ 0) :
    (getCol (calculate_price_change [coin] df) (coin ++ " Price Change"))[j + 1]? =
      some (some ((c - p) / p * 100)) ∧
    (getCol (calculate_price_change [coin] df) (coin ++ " Price Change"))[0]? =
      some none := by
  have hset : getCol (calculate_price_change [coin] df) (coin ++ " Price Change") =
      (pct_change (getCol df (coin ++ " Price"))).map (Option.map (fun r => r * 100)) := by
    simp [calculate_price_change, getCol_setCol]
  rw [hset]
  constructor
  · have hc := pctAux_consecutive p c (getCol df (coin ++ " Price")) none j h1 h2
    rw [List.getElem?_map]
    simp only [pct_change]
    rw [hc]
    have harith : (c / p - 1) * 100 = (c - p) / p * 100 := by
      field_simp
    simp [harith]
  · cases hx : getCol df (coin ++ " Price") with
    | nil => rw [hx] at h1; simp at h1
    | cons x rest =>
      rw [List.getElem?_map, pct_change_head]
      rfl

/-- Claim C4, witness: a single-coin dataframe with prices 1 then 2 yields a
+100 percent change in the second row and null in the first. -/
theorem C4_price_change_witness :
    (getCol (calculate_price_change ["BTC"] [("BTC Price", [some 1, some 2])])
        ("BTC" ++ " Price Change"))[0 + 1]? = some (some ((2 - 1) / 1 * 100)) ∧
    (getCol (calculate_price_change ["BTC"] [("BTC Price", [some 1, some 2])])
        ("BTC" ++ " Price Change"))[0]? = some none :=
  C4_price_change "BTC" [("BTC Price", [some 1, some 2])] 0 1 2 (by decide) (by decide)
    (by decide)

/-- When some response in the list carries a 4xx/5xx status, the per-symbol
request loop raises. -/
theorem collectHistoday_err :
    ∀ resps : List HistodayResponse,
      (∃ r ∈ resps, 400 ≤ r.status ∧ r.status ≤ 599) →
      ∃ e, collectHistoday resps = .error e := by
  intro resps
  induction resps with
  | nil => rintro ⟨r, hr, -⟩; simp at hr
  | cons a rest ih =>
    rintro ⟨r, hr, hst⟩
    rcases List.mem_cons.mp hr with h | h
    · subst h
      have hra : raise_for_status r.status = .error .httpError := by
        simp [raise_for_status, hst.1, hst.2]
      exact ⟨.httpError, by simp [collectHistoday, hra]⟩
    · cases hra : raise_for_status a.status with
      | error e => exact ⟨e, by simp [collectHistoday, hra]⟩
      | ok u =>
        obtain ⟨e, he⟩ := ih ⟨r, h, hst⟩
        exact ⟨e, by simp [collectHistoday, hra, he]⟩

/-- Claim C6, counterexample: a 500 response whose JSON body happens to hold
the expected keys makes `fetch_market_cap` and `fetch_coin_info` succeed —
no exception is raised on the non-2xx status. -/
theorem C6_counterexample :
    fetch_market_cap ⟨500, some [("BTC", 1)]⟩ = .ok [("BTC", 1)] ∧
    fetch_coin_info ⟨500, some [("BTC", ⟨"Bitcoin", "d", "u"⟩)]⟩ ["BTC"] =
      .ok [("BTC", ⟨"Bitcoin", "d", "u"⟩)] := by
  constructor
  · rfl
  · simp [fetch_coin_info, collectCoins, List.lookup]

/-- Claim C6, amended: the price-history and trading-volume fetches raise
immediately on a 4xx/5xx response; the market-cap and coin-list fetches
never inspect the status code, so their outcome is the same for any status
and they fail only when the body lacks the expected keys. -/
theorem C6_amended :
    (∀ resps : List HistodayResponse,
      (∃ r ∈ resps, 400 ≤ r.status ∧ r.status ≤ 599) →
      ∃ e, fetch_price_history resps = .error e) ∧
    (∀ resps : List HistodayResponse,
      (∃ r ∈ resps, 400 ≤ r.status ∧ r.status ≤ 599) →
      ∃ e, fetch_trading_volumes resps = .error e) ∧
    (∀ (st st' : Nat) (raw : Option MarketCapRaw),
      fetch_market_cap ⟨st, raw⟩ = fetch_market_cap ⟨st', raw⟩) ∧
    (∀ (st st' : Nat) (body : Option (List (String × CoinEntry))) (coins : List String),
      fetch_coin_info ⟨st, body⟩ coins = fetch_coin_info ⟨st', body⟩ coins) := by
  refine ⟨fun resps h => ?_, fun resps h => ?_, fun st st' raw => ?_,
    fun st st' body coins => ?_⟩
  · obtain ⟨e, he⟩ := collectHistoday_err resps h
    exact ⟨e, by simp [fetch_price_history, he]⟩
  · obtain ⟨e, he⟩ := collectHistoday_err resps h
    exact ⟨e, by simp [fetch_trading_volumes, he]⟩
  · cases raw <;> rfl
  · cases body <;> rfl

/-- Claim C6, witness: a 500 histoday response makes both history fetches
raise, while the market-cap and coin-list fetches behave on a 500 exactly as
on a 200. -/
theorem C6_amended_witness :
    isErr (fetch_price_history [⟨500, []⟩]) = true ∧
    isErr (fetch_trading_volumes [⟨500, []⟩]) = true ∧
    fetch_market_cap ⟨500, some [("BTC", 1)]⟩ = fetch_market_cap ⟨200, some [("BTC", 1)]⟩ ∧
    fetch_coin_info ⟨500, none⟩ [] = fetch_coin_info ⟨200, none⟩ [] := by
  obtain ⟨h1, h2, h3, h4⟩ := C6_amended
  refine ⟨?_, ?_, h3 500 200 (some [("BTC", 1)]), h4 500 200 none []⟩
  · obtain ⟨e, he⟩ := h1 [⟨500, []⟩] ⟨⟨500, []⟩, by simp, by norm_num, by norm_num⟩
    rw [he]; rfl
  · obtain ⟨e, he⟩ := h2 [⟨500, []⟩] ⟨⟨500, []⟩, by simp, by norm_num, by norm_num⟩
    rw [he]; rfl

/-- A lookup misses exactly when the key is absent from the key column. -/
theorem lookup_eq_none_iff (t : List (Int × Rat)) (d : Int) :
    t.lookup d = none ↔ d ∉ t.map Prod.fst := by
  induction t with
  | nil => simp
  | cons a rest ih =>
    obtain ⟨k, v⟩ := a
    by_cases hd : d = k
    · subst hd
      simp [List.lookup]
    · have hb : (d == k) = false := beq_eq_false_iff_ne.mpr hd
      simp [List.lookup, hb, ih, hd]

/-- Keys survive turning a series into one-column wide rows. -/
theorem keys_pairMap (t : List (Int × Rat)) :
    (t.map (fun q => (q.1, [some q.2]))).map Prod.fst = t.map Prod.fst := by
  induction t with
  | nil => rfl
  | cons a rest ih => simp [ih]

/-- Two series entering the merge loop: the first becomes the dataframe, the
second is outer-merged into it. -/
theorem fetchWide_pair (t1 t2 : List (Int × Rat)) (h : t1 ≠ []) :
    fetchWide [] 0 [t1, t2] =
      mergeOuter (t1.map (fun q => (q.1, [some q.2]))) 1 t2 := by
  cases t1 with
  | nil => exact absurd rfl h
  | cons a t1' => rfl

/-- The merged table's date column is the union of the two series' dates. -/
theorem mergeTwo_keys (t1 t2 : List (Int × Rat)) (h1 : t1 ≠ []) (d : Int) :
    d ∈ (fetchWide [] 0 [t1, t2]).map Prod.fst ↔
      d ∈ t1.map Prod.fst ∨ d ∈ t2.map Prod.fst := by
  rw [fetchWide_pair t1 t2 h1]
  simp only [mergeOuter, List.map_append, List.map_map, keys_pairMap]
  constructor
  · intro hd
    rcases List.mem_append.mp hd with hd | hd
    · left
      obtain ⟨q, hq, hqd⟩ := List.mem_map.mp hd
      exact hqd ▸ List.mem_map.mpr ⟨q, hq, rfl⟩
    · right
      obtain ⟨q, hq, hqd⟩ := List.mem_map.mp hd
      have := (List.mem_filter.mp hq).1
      exact hqd ▸ List.mem_map.mpr ⟨q, this, rfl⟩
  · intro hd
    rcases hd with hd | hd
    · refine List.mem_append.mpr (Or.inl ?_)
      obtain ⟨q, hq, hqd⟩ := List.mem_map.mp hd
      exact List.mem_map.mpr ⟨q, hq, hqd⟩
    · by_cases hin : d ∈ t1.map Prod.fst
      · refine List.mem_append.mpr (Or.inl ?_)
        obtain ⟨q, hq, hqd⟩ := List.mem_map.mp hin
        exact List.mem_map.mpr ⟨q, hq, hqd⟩
      · refine List.mem_append.mpr (Or.inr ?_)
        obtain ⟨q, hq, hqd⟩ := List.mem_map.mp hd
        refine List.mem_map.mpr ⟨q, List.mem_filter.mpr ⟨hq, ?_⟩, hqd⟩
        have hk : List.map (Prod.fst ∘ fun q : Int × Rat => (q.1, [some q.2])) t1 =
            List.map Prod.fst t1 := by
          rw [← List.map_map, keys_pairMap]
        rw [hk]
        subst hqd
        exact decide_eq_true hin

/-- Every merged row has one value slot per series, null exactly where the
corresponding series lacks that date. -/
theorem mergeTwo_rows (t1 t2 : List (Int × Rat)) (h1 : t1 ≠ []) (d : Int)
    (vs : List (Option Rat)) (hm : (d, vs) ∈ fetchWide [] 0 [t1, t2]) :
    ∃ v1 v2 : Option Rat, vs = [v1, v2] ∧
      (v1 = none ↔ d ∉ t1.map Prod.fst) ∧
      (v2 = none ↔ d ∉ t2.map Prod.fst) := by
  rw [fetchWide_pair t1 t2 h1] at hm
  rcases List.mem_append.mp hm with hmem | hmem
  · obtain ⟨p, hp, heq⟩ := List.mem_map.mp hmem
    obtain ⟨q, hq, hpq⟩ := List.mem_map.mp hp
    subst hpq
    injection heq with hd hv
    subst hd
    subst hv
    refine ⟨some q.2, t2.lookup q.1, rfl, ?_, ?_⟩
    · simp only [reduceCtorEq, false_iff, not_not]
      exact List.mem_map.mpr ⟨q, hq, rfl⟩
    · exact lookup_eq_none_iff t2 q.1
  · obtain ⟨q, hq, heq⟩ := List.mem_map.mp hmem
    obtain ⟨hq2, hpred⟩ := List.mem_filter.mp hq
    injection heq with hd hv
    subst hd
    subst hv
    refine ⟨none, some q.2, rfl, ?_, ?_⟩
    · simp only [true_iff]
      rw [keys_pairMap] at hpred
      exact of_decide_eq_true hpred
    · simp only [reduceCtorEq, false_iff, not_not]
      exact List.mem_map.mpr ⟨q, hq2, rfl⟩

/-- The dates of a price series are the response's timestamps. -/
theorem keys_toPriceSeries (s : List HistoRow) :
    (toPriceSeries s).map Prod.fst = s.map HistoRow.time := by
  induction s with
  | nil => rfl
  | cons a rest ih => simp [toPriceSeries, ih]

/-- The dates of a volume series are the response's timestamps. -/
theorem keys_toVolumeSeries (s : List HistoRow) :
    (toVolumeSeries s).map Prod.fst = s.map HistoRow.time := by
  induction s with
  | nil => rfl
  | cons a rest ih => simp [toVolumeSeries, ih]

/-- Claim C5: merging two fetched per-symbol series with partially
overlapping dates (both `fetch_price_history` and `fetch_trading_volumes`)
produces a table whose date set is the union of the two date sets, with a
null in a symbol's column at exactly the dates where that symbol has no
data. -/
theorem C5_outer_merge (s1 s2 : List HistoRow)
    (_hnd1 : (s1.map HistoRow.time).Nodup) (_hnd2 : (s2.map HistoRow.time).Nodup)
    (hov : ∃ d, d ∈ s1.map HistoRow.time ∧ d ∈ s2.map HistoRow.time)
    (_hn1 : ∃ d, d ∈ s1.map HistoRow.time ∧ d ∉ s2.map HistoRow.time)
    (_hn2 : ∃ d, d ∈ s2.map HistoRow.time ∧ d ∉ s1.map HistoRow.time) :
    (fetch_price_history [⟨200, s1⟩, ⟨200, s2⟩] =
        .ok (fetchWide [] 0 [toPriceSeries s1, toPriceSeries s2]) ∧
      (∀ d, d ∈ (fetchWide [] 0 [toPriceSeries s1, toPriceSeries s2]).map Prod.fst ↔
        d ∈ s1.map HistoRow.time ∨ d ∈ s2.map HistoRow.time) ∧
      (∀ d vs, (d, vs) ∈ fetchWide [] 0 [toPriceSeries s1, toPriceSeries s2] →
        ∃ v1 v2 : Option Rat, vs = [v1, v2] ∧
          (v1 = none ↔ d ∉ s1.map HistoRow.time) ∧
          (v2 = none ↔ d ∉ s2.map HistoRow.time))) ∧
    (fetch_trading_volumes [⟨200, s1⟩, ⟨200, s2⟩] =
        .ok (fetchWide [] 0 [toVolumeSeries s1, toVolumeSeries s2]) ∧
      (∀ d, d ∈ (fetchWide [] 0 [toVolumeSeries s1, toVolumeSeries s2]).map Prod.fst ↔
        d ∈ s1.map HistoRow.time ∨ d ∈ s2.map HistoRow.time) ∧
      (∀ d vs, (d, vs) ∈ fetchWide [] 0 [toVolumeSeries s1, toVolumeSeries s2] →
        ∃ v1 v2 : Option Rat, vs = [v1, v2] ∧
          (v1 = none ↔ d ∉ s1.map HistoRow.time) ∧
          (v2 = none ↔ d ∉ s2.map HistoRow.time))) := by
  have hs1 : s1 ≠ [] := by
    obtain ⟨d, hd, -⟩ := hov
    intro hnil
    rw [hnil] at hd
    simp at hd
  have hp1 : toPriceSeries s1 ≠ [] := by
    intro hnil
    exact hs1 (List.map_eq_nil_iff.mp hnil)
  have hv1 : toVolumeSeries s1 ≠ [] := by
    intro hnil
    exact hs1 (List.map_eq_nil_iff.mp hnil)
  refine ⟨⟨rfl, fun d => ?_, fun d vs hm => ?_⟩, ⟨rfl, fun d => ?_, fun d vs hm => ?_⟩⟩
  · rw [mergeTwo_keys _ _ hp1 d, keys_toPriceSeries, keys_toPriceSeries]
  · obtain ⟨v1, v2, hvs, hv1iff, hv2iff⟩ := mergeTwo_rows _ _ hp1 d vs hm
    rw [keys_toPriceSeries] at hv1iff
    rw [keys_toPriceSeries] at hv2iff
    exact ⟨v1, v2, hvs, hv1iff, hv2iff⟩
  · rw [mergeTwo_keys _ _ hv1 d, keys_toVolumeSeries, keys_toVolumeSeries]
  · obtain ⟨v1, v2, hvs, hv1iff, hv2iff⟩ := mergeTwo_rows _ _ hv1 d vs hm
    rw [keys_toVolumeSeries] at hv1iff
    rw [keys_toVolumeSeries] at hv2iff
    exact ⟨v1, v2, hvs, hv1iff, hv2iff⟩

/-- Claim C5, witness: two concrete two-day series overlapping on one day
merge into an ok table. -/
theorem C5_outer_merge_witness :
    isErr (fetch_price_history
        [⟨200, [⟨0, 1, 2⟩, ⟨86400, 3, 4⟩]⟩, ⟨200, [⟨86400, 5, 6⟩, ⟨172800, 7, 8⟩]⟩]) = false ∧
    isErr (fetch_trading_volumes
        [⟨200, [⟨0, 1, 2⟩, ⟨86400, 3, 4⟩]⟩, ⟨200, [⟨86400, 5, 6⟩, ⟨172800, 7, 8⟩]⟩]) = false := by
  obtain ⟨⟨hok, -, -⟩, ⟨hok', -, -⟩⟩ :=
    C5_outer_merge [⟨0, 1, 2⟩, ⟨86400, 3, 4⟩] [⟨86400, 5, 6⟩, ⟨172800, 7, 8⟩]
      (by decide) (by decide) ⟨86400, by decide, by decide⟩
      ⟨0, by decide, by decide⟩ ⟨172800, by decide, by decide⟩
  rw [hok, hok']
  exact ⟨rfl, rfl⟩

/-- Claim C8: evaluating `populate_data` on a pre-existing, stale `coin_info`
table shows the previously stored row surviving next to the freshly fetched
one — the table is appended to, not wholesale-replaced. -/
theorem C8_coin_info_append :
    populate_data [("coin_info", [⟨0, 1⟩])] 1000000 "coin_info" [⟨1000000, 2⟩] =
      ([("coin_info", [⟨0, 1⟩, ⟨1000000, 2⟩])], true) ∧
    (⟨0, 1⟩ : DBRow) ∈
      getTable (populate_data [("coin_info", [⟨0, 1⟩])] 1000000 "coin_info"
        [⟨1000000, 2⟩]).1 "coin_info" := by
  constructor
  · decide
  · decide

end CryptoCompare
